import Mathlib

/-!
Verification of the `ai-types` core: the dual-mode text stream combinator
(`src/llm/stream.rs`), the tool registry (`src/llm/tool.rs`) and the
structured-output generation pipeline (`src/llm/mod.rs`).

Shallow embedding conventions:
* A finite underlying chunk source is a `List (Except ε String)`; the
  element order is the order in which the backend yields chunks.
* `Poll::Pending` suspension is not observable in the awaited value of a
  future over a finite source, so futures are modelled by their resolved
  values.
* Rust `String` is Lean `String`; `anyhow::Error` values are modelled by
  inductive error types tagged with the provenance of the failure path
  that produced them (which `?` / early return fired).
-/

namespace AiTypes

/-! ## Dual-mode stream (`src/llm/stream.rs`)

`TextStreamAdapterFuture::poll` loops over the underlying stream, pushing
each successful chunk onto `buffer`, returning the first error as-is, and
returning the accumulated buffer when the source is exhausted.  `buffer`
starts as `String::new()` (see `into_future`). -/

/-- The poll loop of `TextStreamAdapterFuture` with current buffer `buffer`
and the remaining items of the underlying source. -/
def collectFrom {ε : Type} (buffer : String) : List (Except ε String) → Except ε String
  | [] => .ok buffer
  | .ok chunk :: rest => collectFrom (buffer ++ chunk) rest
  | .error e :: _ => .error e

/-- Awaiting the collect-mode future of the stream adapter: the poll loop
started with the empty buffer. -/
def collect {ε : Type} (source : List (Except ε String)) : Except ε String :=
  collectFrom "" source

/-- The `try_fold(String::new(), |state, new| Ok(state + &new))` call used by
`generate` in `src/llm/mod.rs`: fold successful chunks by concatenation,
short-circuiting at the first error. -/
def tryFoldConcat {ε : Type} (state : String) : List (Except ε String) → Except ε String
  | [] => .ok state
  | .ok chunk :: rest => tryFoldConcat (state ++ chunk) rest
  | .error e :: _ => .error e

/-- Concatenation of a list of strings in order. -/
def concatAll : List String → String
  | [] => ""
  | s :: rest => s ++ concatAll rest

theorem collectFrom_all_ok {ε : Type} (chunks : List String) (buffer : String) :
    collectFrom (ε := ε) buffer (chunks.map Except.ok) = .ok (buffer ++ concatAll chunks) := by
  induction chunks generalizing buffer with
  | nil => simp [collectFrom, concatAll]
  | cons c rest ih =>
    simp only [List.map_cons, collectFrom, concatAll, ih, String.append_assoc]

theorem collectFrom_first_error {ε : Type} (pre : List String) (e : ε)
    (rest : List (Except ε String)) (buffer : String) :
    collectFrom buffer (pre.map Except.ok ++ .error e :: rest) = .error e := by
  induction pre generalizing buffer with
  | nil => simp [collectFrom]
  | cons c pres ih => simp [collectFrom, ih]

theorem tryFoldConcat_eq_collectFrom {ε : Type} (l : List (Except ε String)) (state : String) :
    tryFoldConcat state l = collectFrom state l := by
  induction l generalizing state with
  | nil => rfl
  | cons c rest ih =>
    cases c with
    | ok chunk => simp [tryFoldConcat, collectFrom, ih]
    | error e => rfl

/-! ## Substring containment

Executable check that one string occurs verbatim inside another, with its
characterisation as a list decomposition. -/

/-- `pat` is a leading segment of `l`. -/
def charsHasPre : List Char → List Char → Bool
  | [], _ => true
  | _ :: _, [] => false
  | p :: ps, c :: cs => p == c && charsHasPre ps cs

/-- `pat` occurs contiguously somewhere inside `l`. -/
def charsHasSub (pat : List Char) : List Char → Bool
  | [] => pat.isEmpty
  | c :: rest => charsHasPre pat (c :: rest) || charsHasSub pat rest

/-- The string `s` contains `pat` as a contiguous substring. -/
def strContains (s pat : String) : Bool :=
  charsHasSub pat.data s.data

theorem charsHasPre_iff : ∀ (p l : List Char), charsHasPre p l = true ↔ ∃ r, l = p ++ r
  | [], l => by simp [charsHasPre]
  | a :: ps, [] => by simp [charsHasPre]
  | a :: ps, c :: cs => by
    simp only [charsHasPre, Bool.and_eq_true, beq_iff_eq, charsHasPre_iff ps cs,
      List.cons_append, List.cons.injEq]
    constructor
    · rintro ⟨rfl, r, rfl⟩
      exact ⟨r, rfl, rfl⟩
    · rintro ⟨r, rfl, rfl⟩
      exact ⟨rfl, r, rfl⟩

theorem charsHasSub_iff : ∀ (pat l : List Char), charsHasSub pat l = true ↔ ∃ s r, l = s ++ pat ++ r
  | pat, [] => by
    simp only [charsHasSub, List.isEmpty_iff]
    constructor
    · rintro rfl
      exact ⟨[], [], rfl⟩
    · rintro ⟨s, r, h⟩
      cases s <;> cases pat <;> simp_all
  | pat, c :: cs => by
    simp only [charsHasSub, Bool.or_eq_true, charsHasPre_iff, charsHasSub_iff pat cs]
    constructor
    · rintro (⟨r, h⟩ | ⟨s, r, h⟩)
      · exact ⟨[], r, by simpa using h⟩
      · exact ⟨c :: s, r, by simp [h]⟩
    · rintro ⟨s, r, h⟩
      cases s with
      | nil => exact Or.inl ⟨r, by simpa using h⟩
      | cons x xs =>
        simp only [List.cons_append, List.cons.injEq] at h
        exact Or.inr ⟨xs, r, h.2⟩

theorem strContains_of_decomp (s pat x y : String) (h : s = x ++ (pat ++ y)) :
    strContains s pat = true := by
  subst h
  rw [strContains, charsHasSub_iff]
  exact ⟨x.data, y.data, by simp [String.data_append, List.append_assoc]⟩

/-! ## Messages (`src/llm/message.rs`)

`Url` values are modelled by their textual form; the `UrlAnnotation` field
named `end` in the source is called `stop` here because `end` is a Lean
keyword. -/

/-- Conversation participant role (`Role`). -/
inductive Role where
  | user
  | assistant
  | system
  | tool
deriving DecidableEq

/-- URL annotation metadata (`UrlAnnotation`). -/
structure UrlAnnotation where
  url : String
  title : String
  content : String
  start : Nat
  stop : Nat
deriving DecidableEq

/-- Message annotation (`Annotation`). -/
inductive Annotation where
  | url (a : UrlAnnotation)
deriving DecidableEq

/-- A message in a conversation (`Message`). -/
structure Message where
  role : Role
  content : String
  attachments : List String
  annotation : List Annotation
deriving DecidableEq

/-- `Message::new`: fresh message with no attachments and no annotations. -/
def Message.new (role : Role) (content : String) : Message :=
  ⟨role, content, [], []⟩

/-- `Message::user`. -/
def Message.user (content : String) : Message :=
  Message.new .user content

/-- `Message::assistant`. -/
def Message.assistant (content : String) : Message :=
  Message.new .assistant content

/-- `Message::system`. -/
def Message.system (content : String) : Message :=
  Message.new .system content

/-- `Message::tool`. -/
def Message.tool (content : String) : Message :=
  Message.new .tool content

/-- The private `oneshot` helper of `src/llm/mod.rs`: a two-message
conversation of one system and one user message. -/
def oneshotMessages (sys usr : String) : List Message :=
  [Message.system sys, Message.user usr]

/-! ## Tool registry (`src/llm/tool.rs`)

A `Tool` implementation is fixed static metadata (`NAME`, `DESCRIPTION`,
the rendered argument schema) together with the derived
`serde_json::from_str::<T::Arguments>` decoder and the tool body, which
takes `&mut self` — modelled as explicit state passing over the tool's own
`State` type.  A boxed `dyn ToolImpl` in the registry is an `Entry`: a tool
together with its current internal state. -/

/-- A tool implementation: static metadata, argument decoder, and stateful
body (`trait Tool` plus its blanket `ToolImpl` impl). -/
structure Tool where
  Args : Type
  State : Type
  name : String
  description : String
  argSchema : String
  decode : String → Except String Args
  run : State → Args → Except String String × State

/-- Tool definition for language models (`ToolDefinition`). -/
structure ToolDefinition where
  name : String
  description : String
  arguments : String
deriving DecidableEq

/-- `ToolImpl::definition` / `ToolDefinition::new::<T>`. -/
def Tool.definition (t : Tool) : ToolDefinition :=
  ⟨t.name, t.description, t.argSchema⟩

/-- A registered boxed tool: the tool and its current internal state. -/
structure Entry where
  tool : Tool
  state : tool.State

/-- The registry's `BTreeMap<String, Box<dyn ToolImpl>>`, modelled as an
association list kept sorted by key. -/
abbrev Tools := List (String × Entry)

/-- `BTreeMap::insert`: insert at the sorted position, replacing an
existing binding of the same key. -/
def mapInsert (k : String) (e : Entry) : Tools → Tools
  | [] => [(k, e)]
  | (k2, e2) :: rest =>
    if k < k2 then (k, e) :: (k2, e2) :: rest
    else if k = k2 then (k, e) :: rest
    else (k2, e2) :: mapInsert k e rest

/-- `BTreeMap::remove`: drop the binding of `k`, if any. -/
def mapRemove (k : String) : Tools → Tools
  | [] => []
  | (k2, e2) :: rest => if k = k2 then rest else (k2, e2) :: mapRemove k rest

/-- `BTreeMap::get_mut` (viewed as a read): the entry bound to `k`. -/
def mapGet (k : String) : Tools → Option Entry
  | [] => none
  | (k2, e2) :: rest => if k = k2 then some e2 else mapGet k rest

/-- Writing back through `get_mut`: replace the value bound to `k`. -/
def mapSet (k : String) (e : Entry) : Tools → Tools
  | [] => []
  | (k2, e2) :: rest => if k = k2 then (k2, e) :: rest else (k2, e2) :: mapSet k e rest

/-- `Tools::register`: insert the tool under its static `NAME`. -/
def register (e : Entry) (m : Tools) : Tools :=
  mapInsert e.tool.name e m

/-- `Tools::unregister`. -/
def unregister (name : String) (m : Tools) : Tools :=
  mapRemove name m

/-- `Tools::definitions`: definitions of the registered tools, in the
map's key order. -/
def definitions (m : Tools) : List ToolDefinition :=
  m.map fun p => p.2.tool.definition

/-- The error produced by `Tools::call`, tagged with the failure path that
produced it (the `anyhow::Error` values themselves are opaque; only the
message of the not-found arm is constructed by this crate). -/
inductive CallError where
  | notFound (msg : String)
  | decodeError (diag : String)
  | execError (msg : String)
deriving DecidableEq

/-- The message carried by a `Tools::call` error. -/
def CallError.message : CallError → String
  | .notFound msg => msg
  | .decodeError diag => diag
  | .execError msg => msg

/-- The failure was a lookup or argument-decode rejection, not a failure of
the tool body itself. -/
def CallError.isRejection : CallError → Bool
  | .notFound _ => true
  | .decodeError _ => true
  | .execError _ => false

/-- The not-found message format of `Tools::call`. -/
def notFoundMessage (name : String) : String :=
  "Tool \x27" ++ name ++ "\x27 not found"

/-- `Tools::call`: look up by name; decode the JSON arguments against the
tool's argument type; on success run the body (which may mutate the tool's
state in place). -/
def toolsCall (m : Tools) (name args : String) : Except CallError String × Tools :=
  match mapGet name m with
  | none => (.error (.notFound (notFoundMessage name)), m)
  | some e =>
    match e.tool.decode args with
    | .error diag => (.error (.decodeError diag), m)
    | .ok arguments =>
      match e.tool.run e.state arguments with
      | (.ok output, s2) => (.ok output, mapSet name ⟨e.tool, s2⟩ m)
      | (.error msg, s2) => (.error (.execError msg), mapSet name ⟨e.tool, s2⟩ m)

/-- A registration-interface operation on the registry. -/
inductive RegOp where
  | reg (e : Entry)
  | unreg (name : String)

/-- Apply a sequence of register/unregister operations. -/
def applyOps (m : Tools) : List RegOp → Tools
  | [] => m
  | .reg e :: ops => applyOps (register e m) ops
  | .unreg n :: ops => applyOps (unregister n m) ops

/-- The keys of the association list are strictly ascending (the `BTreeMap`
representation invariant). -/
def SortedKeys (m : Tools) : Prop :=
  (m.map Prod.fst).Pairwise (· < ·)

/-- Every entry is bound under its tool's static name (`register` always
uses `T::NAME` as the key). -/
def KeysMatch (m : Tools) : Prop :=
  ∀ p ∈ m, p.1 = p.2.tool.name

/-! ## Requests and structured generation (`src/llm/mod.rs`)

`Request` is conversation messages plus a tool registry plus generation
parameters; the `Parameters` record is plain data with no algorithmic
content, so it stays a type parameter `π`.  A language model's `respond`
method is a function from a request to the chunk source it returns.  The
`schema_for!`/`json` rendering of the target type's schema and
`serde_json::from_str::<T>` are the injected schema text and parser. -/

/-- A request to a language model (`Request`). -/
structure Request (π : Type) where
  messages : List Message
  tools : Tools
  parameters : π

/-- `Request::new`: given messages, default (empty) tools and default
parameters. -/
def Request.new {π : Type} [Inhabited π] (messages : List Message) : Request π :=
  ⟨messages, [], default⟩

/-- `Request::oneshot`. -/
def Request.oneshot {π : Type} [Inhabited π] (sys usr : String) : Request π :=
  Request.new (oneshotMessages sys usr)

/-- The error of the structured-generation pipeline, tagged by which `?`
produced it: a backend stream error, or the `serde_json::from_str` failure
on the collected text. -/
inductive GenError (ε δ : Type) where
  | backend (e : ε)
  | parse (d : δ)
deriving DecidableEq

/-- First segment of `generate`'s prompt literal, up to the spliced
`{schema}`. -/
def promptSeg1 : String :=
  "You must respond with valid JSON that strictly conforms to the following JSON schema:\n\n"

/-- Prompt literal between the schema and the first bullet's tail. -/
def promptSeg2 : String :=
  "\n\nRequirements:\n- Your response must be "

/-- The "ONLY valid JSON" constraint text of the first bullet. -/
def constraintOnlyJson : String :=
  "ONLY valid JSON"

/-- Prompt literal covering the middle bullets. -/
def promptSeg3 : String :=
  ", no additional text, explanations, or markdown\n- The JSON must exactly match the schema structure and types\n- All required fields must be present\n- Use appropriate data types (strings, numbers, booleans, arrays, objects)\n- Ensure proper JSON syntax with correct quotes, brackets, and commas\n- "

/-- The last bullet: the constraint forbidding text around the JSON. -/
def constraintNoSurroundingText : String :=
  "Do not include any text before or after the JSON"

/-- Prompt literal introducing the example object. -/
def promptSeg4 : String :=
  "\n\nExample format: "

/-- The inline example object of the prompt (`{{` and `}}` in the source's
`format!` literal render as literal braces). -/
def exampleObject : String :=
  "\x7b\"field1\": \"value1\", \"field2\": 123\x7d"

/-- Closing prompt literal. -/
def promptSeg5 : String :=
  "\n\nGenerate the JSON response now:"

/-- The full instruction prompt built by `generate`'s `format!` call, with
the rendered schema spliced in. -/
def generatePrompt (schema : String) : String :=
  promptSeg1 ++ schema ++ promptSeg2 ++ constraintOnlyJson ++ promptSeg3 ++
    constraintNoSurroundingText ++ promptSeg4 ++ exampleObject ++ promptSeg5

/-- The free `generate` function of `src/llm/mod.rs`: append the schema
instruction as a system message, send, fold the response stream by
concatenation stopping at the first error, then parse the collected
text. -/
def generate {π ε δ τ : Type} (respond : Request π → List (Except ε String))
    (schema : String) (parseResponse : String → Except δ τ) (request : Request π) :
    Except (GenError ε δ) τ :=
  let prompt := generatePrompt schema
  let augmented : Request π :=
    { request with messages := request.messages ++ [Message.system prompt] }
  match tryFoldConcat "" (respond augmented) with
  | .error e => .error (.backend e)
  | .ok response =>
    match parseResponse response with
    | .error d => .error (.parse d)
    | .ok value => .ok value

/-- The free `summarize` function: respond to a fixed two-message prompt,
returning the raw stream. -/
def summarize {π ε : Type} [Inhabited π] (respond : Request π → List (Except ε String))
    (text : String) : List (Except ε String) :=
  respond (Request.oneshot "Summarize text:" text)

/-- The free `categorize` function: `generate` on a fixed two-message
prompt. -/
def categorize {π ε δ τ : Type} [Inhabited π] (respond : Request π → List (Except ε String))
    (schema : String) (parseResponse : String → Except δ τ) (text : String) :
    Except (GenError ε δ) τ :=
  generate respond schema parseResponse (Request.oneshot "Categorize text by provided schema" text)

/-- Spec reading (§4.3, claim C8) of "`summarize` is the same algorithm
as `generate` with a fixed instruction/schema pair substituted for the
caller-supplied one": there is a fixed instruction and schema such that,
for every backend and input text, the stream `summarize` hands back is the
one the structured-generation pipeline drives, namely the backend's
response to the fixed two-message prompt with the schema instruction
appended.  Stated over the source-translated `summarize`. -/
def summarizeIsStructuredPipeline : Prop :=
  ∃ instr schemaStr : String,
    ∀ (respond : Request Unit → List (Except Unit String)) (text : String),
      summarize respond text =
        respond { Request.oneshot (π := Unit) instr text with
                  messages := (Request.oneshot (π := Unit) instr text).messages ++
                    [Message.system (generatePrompt schemaStr)] }

/-! ## Registry lemmas -/

theorem mem_mapInsert {k : String} {e : Entry} :
    ∀ {m : Tools} {q : String × Entry}, q ∈ mapInsert k e m → q = (k, e) ∨ q ∈ m := by
  intro m
  induction m with
  | nil =>
    intro q h
    simp only [mapInsert, List.mem_singleton] at h
    exact Or.inl h
  | cons p rest ih =>
    obtain ⟨k2, e2⟩ := p
    intro q h
    simp only [mapInsert] at h
    rcases lt_trichotomy k k2 with hlt | heq | hgt
    · rw [if_pos hlt] at h
      rcases List.mem_cons.1 h with h1 | h1
      · exact Or.inl h1
      · exact Or.inr h1
    · rw [if_neg (heq ▸ lt_irrefl k), if_pos heq] at h
      rcases List.mem_cons.1 h with h1 | h1
      · exact Or.inl h1
      · exact Or.inr (List.mem_cons_of_mem _ h1)
    · rw [if_neg (lt_asymm hgt), if_neg (ne_of_gt hgt)] at h
      rcases List.mem_cons.1 h with h1 | h1
      · exact Or.inr (h1 ▸ List.mem_cons_self _ _)
      · rcases ih h1 with h2 | h2
        · exact Or.inl h2
        · exact Or.inr (List.mem_cons_of_mem _ h2)

theorem mem_keys_mapInsert {k x : String} {e : Entry} {m : Tools}
    (h : x ∈ (mapInsert k e m).map Prod.fst) : x = k ∨ x ∈ m.map Prod.fst := by
  rcases List.mem_map.1 h with ⟨q, hq, rfl⟩
  rcases mem_mapInsert hq with h1 | h1
  · exact Or.inl (by rw [h1])
  · exact Or.inr (List.mem_map_of_mem _ h1)

theorem sortedKeys_mapInsert (k : String) (e : Entry) :
    ∀ {m : Tools}, SortedKeys m → SortedKeys (mapInsert k e m) := by
  intro m
  induction m with
  | nil =>
    intro _
    simp [mapInsert, SortedKeys]
  | cons p rest ih =>
    obtain ⟨k2, e2⟩ := p
    intro h
    simp only [SortedKeys, List.map_cons, List.pairwise_cons] at h
    obtain ⟨h1, h2⟩ := h
    simp only [mapInsert]
    rcases lt_trichotomy k k2 with hlt | heq | hgt
    · rw [if_pos hlt]
      simp only [SortedKeys, List.map_cons, List.pairwise_cons]
      refine ⟨?_, h1, h2⟩
      intro x hx
      rcases List.mem_cons.1 hx with h3 | h3
      · exact h3 ▸ hlt
      · exact lt_trans hlt (h1 x h3)
    · rw [if_neg (heq ▸ lt_irrefl k), if_pos heq]
      simp only [SortedKeys, List.map_cons, List.pairwise_cons]
      exact ⟨fun x hx => heq ▸ h1 x hx, h2⟩
    · rw [if_neg (lt_asymm hgt), if_neg (ne_of_gt hgt)]
      simp only [SortedKeys, List.map_cons, List.pairwise_cons]
      refine ⟨?_, ih h2⟩
      intro x hx
      rcases mem_keys_mapInsert hx with h3 | h3
      · exact h3 ▸ hgt
      · exact h1 x h3

theorem mapRemove_sublist (k : String) : ∀ (m : Tools), (mapRemove k m).Sublist m
  | [] => by simp [mapRemove]
  | (k2, e2) :: rest => by
    simp only [mapRemove]
    split
    · exact List.sublist_cons_self _ _
    · exact (mapRemove_sublist k rest).cons₂ _

theorem sortedKeys_mapRemove (k : String) {m : Tools} (h : SortedKeys m) :
    SortedKeys (mapRemove k m) :=
  List.Pairwise.sublist ((mapRemove_sublist k m).map Prod.fst) h

theorem sortedKeys_nodup {m : Tools} (h : SortedKeys m) : (m.map Prod.fst).Nodup :=
  List.Pairwise.imp (fun hlt => ne_of_lt hlt) h

theorem mapGet_mapInsert_self (k : String) (e : Entry) :
    ∀ (m : Tools), mapGet k (mapInsert k e m) = some e := by
  intro m
  induction m with
  | nil => simp [mapInsert, mapGet]
  | cons p rest ih =>
    obtain ⟨k2, e2⟩ := p
    simp only [mapInsert]
    rcases lt_trichotomy k k2 with hlt | heq | hgt
    · rw [if_pos hlt]
      simp [mapGet]
    · rw [if_neg (heq ▸ lt_irrefl k), if_pos heq]
      simp [mapGet]
    · rw [if_neg (lt_asymm hgt), if_neg (ne_of_gt hgt)]
      simp only [mapGet, if_neg (ne_of_gt hgt)]
      exact ih

theorem keysMatch_register {m : Tools} (h : KeysMatch m) (e : Entry) :
    KeysMatch (register e m) := by
  intro q hq
  rcases mem_mapInsert hq with h1 | h1
  · rw [h1]
  · exact h q h1

theorem keysMatch_unregister {m : Tools} (h : KeysMatch m) (name : String) :
    KeysMatch (unregister name m) := by
  intro q hq
  exact h q ((mapRemove_sublist name m).subset hq)

theorem applyOps_invariant :
    ∀ (ops : List RegOp) (m : Tools), SortedKeys m → KeysMatch m →
      SortedKeys (applyOps m ops) ∧ KeysMatch (applyOps m ops)
  | [], _ => fun h1 h2 => ⟨h1, h2⟩
  | .reg e :: ops, m => fun h1 h2 =>
    applyOps_invariant ops (register e m) (sortedKeys_mapInsert _ _ h1) (keysMatch_register h2 e)
  | .unreg n :: ops, m => fun h1 h2 =>
    applyOps_invariant ops (unregister n m) (sortedKeys_mapRemove _ h1) (keysMatch_unregister h2 n)

theorem definitions_names {m : Tools} (h : KeysMatch m) :
    (definitions m).map ToolDefinition.name = m.map Prod.fst := by
  induction m with
  | nil => rfl
  | cons p rest ih =>
    simp only [definitions, List.map_cons] at *
    rw [ih fun q hq => h q (List.mem_cons_of_mem _ hq)]
    exact congrArg (· :: rest.map Prod.fst) (h p (List.mem_cons_self _ _)).symm

/-! ## Concrete instances used as probe inputs -/

/-- A backend stub that answers every request with the single chunk
`"@"`. -/
def respondAtSign : Request Unit → List (Except Unit String) :=
  fun _ => [.ok "@"]

/-- A backend stub that answers every request with the single chunk
`"#"`. -/
def respondHashSign : Request Unit → List (Except Unit String) :=
  fun _ => [.ok "#"]

/-- A backend stub whose single chunk is the number of messages in the
request it received. -/
def respondMessageCount : Request Unit → List (Except Unit String) :=
  fun r => [.ok (toString r.messages.length)]

/-- The behaviour of `serde_json::from_str::<u32>` on the probe inputs of
this file: `"42"` parses; `"@"` and `"#"` both fail with the same
diagnostic, exactly as serde_json reports `expected value at line 1
column 1` for either input (its error holds a message and a position, not
the input text). -/
def parseNatStub : String → Except String Nat := fun s =>
  if s = "42" then .ok 42 else .error "expected value at line 1 column 1"

/-- An empty request. -/
def emptyRequest : Request Unit :=
  ⟨[], [], ()⟩

/-- A stateful tool whose internal state counts how often its body ran;
its decoder accepts only the literal `"1"`. -/
def counterTool : Tool where
  Args := Nat
  State := Nat
  name := "counter"
  description := "counts calls"
  argSchema := "\x7b\"type\": \"integer\"\x7d"
  decode := fun s => if s = "1" then .ok 1 else .error ("invalid JSON: " ++ s)
  run := fun st a => (.ok (toString (st + a)), st + 1)

/-- The counter tool registered with call count 0. -/
def counterEntry : Entry :=
  ⟨counterTool, (0 : Nat)⟩

/-- A registry holding only the counter tool. -/
def counterRegistry : Tools :=
  [("counter", counterEntry)]

/-! ## Claims -/

/-- C1: for every finite underlying chunk source all of whose items are
successes, awaiting the collect-mode future of the stream adapter returns
`Ok` of the concatenation of the chunk texts in source order; in
particular, for the empty source it returns `Ok ""`. -/
theorem collect_ok_concatenation {ε : Type} (chunks : List String) :
    collect (ε := ε) (chunks.map Except.ok) = .ok (concatAll chunks) ∧
    collect (ε := ε) [] = .ok "" := by
  constructor
  · rw [collect, collectFrom_all_ok]
    simp
  · rfl

/-- C2: for every underlying chunk source whose first error item is `e`
(preceded by any successful chunks `pre`), awaiting the collect-mode
future returns exactly `Err e`: the text accumulated from the preceding
successful chunks does not appear in the result. -/
theorem collect_first_error_result {ε : Type} (pre : List String) (e : ε)
    (rest : List (Except ε String)) :
    collect (pre.map Except.ok ++ .error e :: rest) = .error e :=
  collectFrom_first_error pre e rest ""

/-- C3 (amended): when the collected response text fails to parse,
`generate` returns an error distinct from backend errors that carries the
parser's diagnostic — and only the diagnostic; the raw collected text is
not part of the error. -/
theorem generate_parse_failure_diag_only {π ε δ τ : Type}
    (respond : Request π → List (Except ε String)) (schema : String)
    (parseResponse : String → Except δ τ) (request : Request π)
    (text : String) (d : δ)
    (h1 : tryFoldConcat "" (respond { request with
        messages := request.messages ++ [Message.system (generatePrompt schema)] }) = .ok text)
    (h2 : parseResponse text = .error d) :
    generate respond schema parseResponse request = .error (.parse d) := by
  simp only [generate, h1, h2]

/-- Witness for C3 (amended): a backend whose collected text is `"@"` and
a parser rejecting it give exactly the parse-tagged diagnostic error. -/
theorem generate_parse_failure_diag_only_witness :
    tryFoldConcat "" (respondAtSign { emptyRequest with
        messages := emptyRequest.messages ++ [Message.system (generatePrompt "S")] }) = .ok "@" ∧
    parseNatStub "@" = .error "expected value at line 1 column 1" ∧
    generate respondAtSign "S" parseNatStub emptyRequest =
      .error (.parse "expected value at line 1 column 1") :=
  ⟨rfl, rfl,
    generate_parse_failure_diag_only respondAtSign "S" parseNatStub emptyRequest "@" _ rfl rfl⟩

/-- Counterexample for C3 as stated: two backends whose collected raw
texts differ (`"@"` vs `"#"`) produce *equal* `generate` errors, so the
error returned by `generate` cannot carry the raw collected response
text.  (serde_json reports the same diagnostic for both inputs.) -/
theorem generate_parse_error_drops_raw_text :
    generate respondAtSign "S" parseNatStub emptyRequest =
      generate respondHashSign "S" parseNatStub emptyRequest ∧
    tryFoldConcat "" (respondAtSign { emptyRequest with
        messages := emptyRequest.messages ++ [Message.system (generatePrompt "S")] }) = .ok "@" ∧
    tryFoldConcat "" (respondHashSign { emptyRequest with
        messages := emptyRequest.messages ++ [Message.system (generatePrompt "S")] }) = .ok "#" ∧
    ("@" : String) ≠ "#" ∧
    generate respondAtSign "S" parseNatStub emptyRequest =
      .error (.parse "expected value at line 1 column 1") :=
  ⟨rfl, rfl, rfl, by decide, rfl⟩

/-- C4 (amended): `generate` appends exactly one system instruction
message to the end of the conversation — the original messages kept
unchanged as a prefix, tools and parameters untouched — whose text
contains the rendered schema, the literal constraints "ONLY valid JSON"
and "Do not include any text before or after the JSON", and the inline
example object; it sends the augmented conversation to the backend,
concatenates the response in collect-mode fashion (stopping at the first
error), and parses the collected text. -/
theorem generate_appends_schema_instruction {π ε δ τ : Type}
    (respond : Request π → List (Except ε String)) (schema : String)
    (parseResponse : String → Except δ τ) (request : Request π) :
    (generate respond schema parseResponse request =
      match collect (respond { request with
          messages := request.messages ++ [Message.system (generatePrompt schema)] }) with
      | .error e => .error (.backend e)
      | .ok response =>
        match parseResponse response with
        | .error d => .error (.parse d)
        | .ok value => .ok value) ∧
    strContains (generatePrompt schema) schema = true ∧
    strContains (generatePrompt schema) "ONLY valid JSON" = true ∧
    strContains (generatePrompt schema) "Do not include any text before or after the JSON" = true ∧
    strContains (generatePrompt schema) "\x7b\"field1\": \"value1\", \"field2\": 123\x7d" = true := by
  refine ⟨?_, ?_, ?_, ?_, ?_⟩
  · simp only [generate, collect, tryFoldConcat_eq_collectFrom]
  · exact strContains_of_decomp _ _ promptSeg1
      (promptSeg2 ++ constraintOnlyJson ++ promptSeg3 ++ constraintNoSurroundingText ++
        promptSeg4 ++ exampleObject ++ promptSeg5)
      (by simp only [generatePrompt, String.append_assoc])
  · exact strContains_of_decomp _ _ (promptSeg1 ++ schema ++ promptSeg2)
      (promptSeg3 ++ constraintNoSurroundingText ++ promptSeg4 ++ exampleObject ++ promptSeg5)
      (by simp only [generatePrompt, constraintOnlyJson, String.append_assoc])
  · exact strContains_of_decomp _ _
      (promptSeg1 ++ schema ++ promptSeg2 ++ constraintOnlyJson ++ promptSeg3)
      (promptSeg4 ++ exampleObject ++ promptSeg5)
      (by simp only [generatePrompt, constraintNoSurroundingText, String.append_assoc])
  · exact strContains_of_decomp _ _
      (promptSeg1 ++ schema ++ promptSeg2 ++ constraintOnlyJson ++ promptSeg3 ++
        constraintNoSurroundingText ++ promptSeg4)
      promptSeg5
      (by simp only [generatePrompt, exampleObject, String.append_assoc])

set_option maxRecDepth 100000 in
/-- Counterexample for C4 as stated: the claimed literal constraint
"no text before or after" does not occur in the instruction message (the
source text reads "Do not include any text before or after the JSON"). -/
theorem generate_prompt_lacks_literal_no_text_phrase :
    strContains (generatePrompt "S") "no text before or after" = false := by
  decide

/-- C5: when the argument text does not decode to the named tool's
declared argument type, `call` returns a decode error carrying the
underlying parse diagnostic, and the registry — including the tool's
internal state — is returned unchanged: the tool's body is never
invoked. -/
theorem call_decode_failure_rejects_without_run (m : Tools) (name args : String)
    (e : Entry) (d : String)
    (h1 : mapGet name m = some e) (h2 : e.tool.decode args = .error d) :
    toolsCall m name args = (.error (.decodeError d), m) := by
  simp only [toolsCall, h1, h2]

/-- Witness for C5: calling the counter tool with undecodable arguments
yields the decode diagnostic and leaves its call count at 0. -/
theorem call_decode_failure_witness :
    mapGet "counter" counterRegistry = some counterEntry ∧
    counterEntry.tool.decode "not json" = .error "invalid JSON: not json" ∧
    toolsCall counterRegistry "counter" "not json" =
      (.error (.decodeError "invalid JSON: not json"), counterRegistry) :=
  ⟨rfl, rfl,
    call_decode_failure_rejects_without_run counterRegistry "counter" "not json"
      counterEntry _ rfl rfl⟩

/-- C6: calling a name not registered in the registry fails for any
argument text with a not-found error whose message contains the literal
looked-up name. -/
theorem call_not_found_names_tool (m : Tools) (name args : String)
    (h : mapGet name m = none) :
    toolsCall m name args = (.error (.notFound (notFoundMessage name)), m) ∧
    strContains (notFoundMessage name) name = true := by
  constructor
  · simp only [toolsCall, h]
  · exact strContains_of_decomp _ _ "Tool \x27" "\x27 not found"
      (by simp only [notFoundMessage, String.append_assoc])

/-- Witness for C6: `call "missing"` on the empty registry fails and the
message contains `"missing"`. -/
theorem call_not_found_witness :
    mapGet "missing" ([] : Tools) = none ∧
    toolsCall [] "missing" "\x7b\x7d" =
      (.error (.notFound "Tool \x27missing\x27 not found"), []) ∧
    strContains "Tool \x27missing\x27 not found" "missing" = true :=
  ⟨rfl, (call_not_found_names_tool [] "missing" "\x7b\x7d" rfl).1,
    (call_not_found_names_tool [] "missing" "\x7b\x7d" rfl).2⟩

/-- C7: after any sequence of register/unregister operations the registry
holds at most one entry per name (`register` always succeeds and a later
registration of the same name replaces the earlier one — looking the name
up after a registration yields the newly registered entry), so
`definitions` has exactly one element per distinct registered name. -/
theorem registry_unique_names_last_wins (ops : List RegOp) (e : Entry) :
    ((applyOps [] ops).map Prod.fst).Nodup ∧
    mapGet e.tool.name (register e (applyOps [] ops)) = some e ∧
    (definitions (applyOps [] ops)).length = ((applyOps [] ops).map Prod.fst).length := by
  have h := applyOps_invariant ops [] (List.Pairwise.nil)
    (fun p hp => absurd hp (List.not_mem_nil p))
  refine ⟨sortedKeys_nodup h.1, mapGet_mapInsert_self _ _ _, ?_⟩
  simp [definitions]

/-- C8 (amended): `categorize` is exactly the structured-generation
pipeline (`generate`) applied to a fixed two-message prompt, while
`summarize` is the plain streaming pipeline (`respond`) applied to a
fixed two-message prompt — no separate mechanism in either case, but
`summarize` does not go through the structured-generation pipeline. -/
theorem helpers_delegate_to_pipelines {π ε δ τ : Type} [Inhabited π]
    (respond : Request π → List (Except ε String)) (schema : String)
    (parseResponse : String → Except δ τ) (text : String) :
    categorize respond schema parseResponse text =
      generate respond schema parseResponse
        (Request.new [Message.system "Categorize text by provided schema", Message.user text]) ∧
    summarize respond text =
      respond (Request.new [Message.system "Summarize text:", Message.user text]) :=
  ⟨rfl, rfl⟩

/-- Counterexample for C8 as stated: no fixed instruction/schema pair
makes `summarize` the structured-generation pipeline — `summarize` hands
the backend a two-message conversation, the pipeline a three-message one,
and a backend reporting the message count distinguishes them. -/
theorem summarize_not_structured_pipeline : ¬ summarizeIsStructuredPipeline := by
  rintro ⟨instr, schemaStr, h⟩
  have h2 := h respondMessageCount "x"
  simp only [summarize, respondMessageCount, Request.oneshot, Request.new, oneshotMessages,
    List.length_append, List.length_cons, List.length_nil, List.cons.injEq,
    Except.ok.injEq, and_true] at h2
  exact absurd h2 (by decide)

/-- C9: for every reachable registry state, `definitions` returns the
name/description/argument-schema records of all registered tools, in
ascending order of tool name. -/
theorem definitions_sorted_by_name (ops : List RegOp) :
    definitions (applyOps [] ops) =
      (applyOps [] ops).map (fun p => p.2.tool.definition) ∧
    ((definitions (applyOps [] ops)).map ToolDefinition.name).Pairwise (· < ·) := by
  have h := applyOps_invariant ops [] (List.Pairwise.nil)
    (fun p hp => absurd hp (List.not_mem_nil p))
  refine ⟨rfl, ?_⟩
  rw [definitions_names h.2]
  exact h.1

/-- C10: whenever `call` fails because the name is not registered or the
argument text fails to decode, the registry map afterwards is the registry
map before: the same names bound to the same entries. -/
theorem failed_call_leaves_registry_unchanged (m : Tools) (name args : String)
    (e : CallError)
    (h1 : (toolsCall m name args).1 = .error e) (h2 : e.isRejection = true) :
    (toolsCall m name args).2 = m := by
  cases hg : mapGet name m with
  | none => simp [toolsCall, hg]
  | some entry =>
    cases hd : entry.tool.decode args with
    | error d => simp [toolsCall, hg, hd]
    | ok a =>
      exfalso
      cases hr : entry.tool.run entry.state a with
      | mk r s2 =>
        cases r with
        | ok out =>
          simp only [toolsCall, hg, hd, hr] at h1
          exact absurd h1 (by simp)
        | error msg =>
          simp only [toolsCall, hg, hd, hr, Except.error.injEq] at h1
          rw [← h1] at h2
          simp [CallError.isRejection] at h2

/-- Witness for C10: a not-found call on the counter registry leaves it
unchanged. -/
theorem failed_call_unchanged_witness :
    (toolsCall counterRegistry "missing" "\x7b\x7d").1 =
      .error (.notFound "Tool \x27missing\x27 not found") ∧
    CallError.isRejection (.notFound "Tool \x27missing\x27 not found") = true ∧
    (toolsCall counterRegistry "missing" "\x7b\x7d").2 = counterRegistry :=
  ⟨rfl, rfl,
    failed_call_leaves_registry_unchanged counterRegistry "missing" "\x7b\x7d" _ rfl rfl⟩

end AiTypes
